import Mathlib

/-!
Verification of the image-fitting bot (`src/bot.py`).

The script fetches a random image, fits it to a byte budget as a JPEG, and
posts it.  The only nontrivial logic is `convert_and_compress_to_jpeg`,
which we embed here as a pure function parameterised by an abstract codec
(the PIL image library is an external collaborator: decode, RGB conversion,
resize and JPEG encode are opaque operations).  Byte strings are modelled
as `List Nat`.  The Python float variable `scale` (initially `0.9`,
multiplied by `0.9` each round) is modelled as the exact rational `9/10`;
for every width/height in the catalog `common_resolutions` and every round
`k ≤ 5` the Python float computation `int(d * scale)` agrees with the exact
rational floor, so the model is faithful on all inputs the program uses.
-/

/-- `common_resolutions` from bot.py lines 9-17. -/
def common_resolutions : List (Nat × Nat) :=
  [(1920, 1080), (1280, 720), (1024, 768), (600, 800), (800, 600), (800, 800), (1600, 900)]

/-- `MAX_BYTES = 1_000_000` (bot.py line 20): the hard protocol limit. -/
def MAX_BYTES : Nat := 1000000

/-- `TARGET_MAX_BYTES = 950_000` (bot.py line 21): the internal byte budget. -/
def TARGET_MAX_BYTES : Nat := 950000

/-- The full-resolution quality ladder (bot.py line 49). -/
def fullQualityLadder : List Nat :=
  [95, 92, 90, 88, 85, 82, 80, 78, 75, 72, 70, 65, 60, 55, 50]

/-- The shorter quality ladder used in the scale-down rounds (bot.py line 62). -/
def scaledQualityLadder : List Nat := [80, 75, 70, 65, 60, 55]

/-- Abstract interface to the PIL image library (the external collaborator).
`Img` is the opaque raster type.
* `openImage` models `Image.open` on raw bytes; `none` models the decode
  exception (`DecodeError` in the spec's taxonomy).
* `convert` models `img.convert("RGB")`.
* `size` models `img.size` (a width/height pair).
* `resize` models `img.resize((w, h), Image.LANCZOS)`.
* `save` models encoding to JPEG at a given quality with
  `optimize=True, progressive=True` and returns the encoded bytes. -/
structure Codec (Img : Type) where
  openImage : List Nat → Option Img
  convert : Img → Img
  size : Img → Nat × Nat
  resize : Img → Nat × Nat → Img
  save : Img → Nat → List Nat

/-- Failures of the fitter: `DecodeError` (unparseable image bytes) and
`CompressionExhausted` (the `RuntimeError` at bot.py line 70). -/
inductive FitError where
  | DecodeError : FitError
  | CompressionExhausted : FitError
deriving DecidableEq, Repr

/-- The quality-search loop (bot.py lines 49-54 and 62-67): walk the quality
ladder in order, encode at each level, and return the first encoding whose
byte length is at most `TARGET_MAX_BYTES`. -/
def tryQualities {Img : Type} (C : Codec Img) (img : Img) : List Nat → Option (List Nat)
  | [] => none
  | quality :: rest =>
    let data := C.save img quality
    if data.length ≤ TARGET_MAX_BYTES then some data else tryQualities C img rest

/-- The scale-down fallback loop (bot.py lines 56-68).  `scale` is the
running scale factor (a Python float, modelled as an exact rational) and
`fuel` the number of remaining rounds (initially 5).  Each round computes
`max 1 (int(width * scale))` and `max 1 (int(height * scale))` from the
ORIGINAL target dimensions, resizes the full-resolution RGB raster `img`,
runs the shorter quality ladder, and on failure multiplies `scale` by 0.9. -/
def scaleLoop {Img : Type} (C : Codec Img) (img : Img) (width height : Nat) :
    ℚ → Nat → Option (List Nat)
  | _, 0 => none
  | scale, fuel + 1 =>
    let new_w := max 1 ⌊(width : ℚ) * scale⌋₊
    let new_h := max 1 ⌊(height : ℚ) * scale⌋₊
    let tmp := C.resize img (new_w, new_h)
    match tryQualities C tmp scaledQualityLadder with
    | some data => some data
    | none => scaleLoop C img width height (scale * (9 / 10)) fuel

/-- The raster bound to `img` after normalisation (bot.py lines 44-46):
convert to RGB, then resize to exactly `(width, height)` when the current
size differs. -/
def normImg {Img : Type} (C : Codec Img) (img0 : Img) (width height : Nat) : Img :=
  let img1 := C.convert img0
  if C.size img1 ≠ (width, height) then C.resize img1 (width, height) else img1

/-- `convert_and_compress_to_jpeg` (bot.py lines 36-70): decode, normalise
to RGB, resize to the exact target if needed, run the full quality ladder,
then up to 5 scale-down rounds, and fail with `CompressionExhausted` if
nothing fits the budget. -/
def convert_and_compress_to_jpeg {Img : Type} (C : Codec Img)
    (img_bytes : List Nat) (width height : Nat) : Except FitError (List Nat) :=
  match C.openImage img_bytes with
  | none => .error .DecodeError
  | some img0 =>
    let img := normImg C img0 width height
    match tryQualities C img fullQualityLadder with
    | some data => .ok data
    | none =>
      match scaleLoop C img width height (9 / 10) 5 with
      | some data => .ok data
      | none => .error .CompressionExhausted

/-- The raster dimensions used by scale-down round `k` (1-based): the code's
`max(1, int(d * scale))` where `scale = 0.9^k`, written with exact rational
arithmetic. -/
def scaledDim (d k : Nat) : Nat := max 1 ⌊(d : ℚ) * (9 / 10) ^ k⌋₊

theorem scaledDim_eq_div (d k : Nat) : scaledDim d k = max 1 (d * 9 ^ k / 10 ^ k) := by
  unfold scaledDim
  congr 1
  have h : (d : ℚ) * (9 / 10) ^ k = (d * 9 ^ k : ℕ) / ((10 ^ k : ℕ) : ℚ) := by
    push_cast
    rw [div_pow]
    ring
  rw [h, Nat.floor_div_nat, Nat.floor_natCast]

/-- A concrete codec used to exercise the fitter on explicit inputs: a
raster is just its dimension pair, `resize` replaces it, and `save`
produces a byte string recording the raster dimensions and the quality,
padded with `f i q` zeros (so its length is `3 + f i q`). -/
def dimsCodec (f : Nat × Nat → Nat → Nat) : Codec (Nat × Nat) where
  openImage b :=
    match b with
    | [] => none
    | [w] => some (w, w)
    | w :: h :: _ => some (w, h)
  convert i := i
  size i := i
  resize _ s := s
  save i q := i.1 :: i.2 :: q :: List.replicate (f i q) 0

theorem dimsCodec_save_length (f : Nat × Nat → Nat → Nat) (i : Nat × Nat) (q : Nat) :
    ((dimsCodec f).save i q).length = 3 + f i q := by
  simp [dimsCodec]
  omega

/-- The quality loop returns the encoding at the first quality on the
ladder whose size fits the budget. -/
theorem tryQualities_eq_find {Img : Type} (C : Codec Img) (img : Img) (L : List Nat) :
    tryQualities C img L =
      (L.find? fun q => decide ((C.save img q).length ≤ TARGET_MAX_BYTES)).map (C.save img) := by
  induction L with
  | nil => rfl
  | cons q rest ih =>
    simp only [tryQualities, List.find?]
    by_cases hq : (C.save img q).length ≤ TARGET_MAX_BYTES
    · simp [hq]
    · simp [hq, ih]

theorem tryQualities_le_budget {Img : Type} (C : Codec Img) (img : Img) (L : List Nat)
    (data : List Nat) (h : tryQualities C img L = some data) :
    data.length ≤ TARGET_MAX_BYTES := by
  induction L with
  | nil => exact absurd h (by simp [tryQualities])
  | cons q rest ih =>
    simp only [tryQualities] at h
    by_cases hq : (C.save img q).length ≤ TARGET_MAX_BYTES
    · simp only [if_pos hq, Option.some.injEq] at h
      exact h ▸ hq
    · exact ih (by simpa [if_neg hq] using h)

theorem tryQualities_mem {Img : Type} (C : Codec Img) (img : Img) (L : List Nat)
    (data : List Nat) (h : tryQualities C img L = some data) :
    ∃ q ∈ L, data = C.save img q := by
  induction L with
  | nil => exact absurd h (by simp [tryQualities])
  | cons q rest ih =>
    simp only [tryQualities] at h
    by_cases hq : (C.save img q).length ≤ TARGET_MAX_BYTES
    · simp only [if_pos hq, Option.some.injEq] at h
      exact ⟨q, by simp, h.symm⟩
    · obtain ⟨q', hq', hdata⟩ := ih (by simpa [if_neg hq] using h)
      exact ⟨q', by simp [hq'], hdata⟩

theorem tryQualities_eq_none {Img : Type} (C : Codec Img) (img : Img) (L : List Nat)
    (h : ∀ q ∈ L, TARGET_MAX_BYTES < (C.save img q).length) :
    tryQualities C img L = none := by
  induction L with
  | nil => rfl
  | cons q rest ih =>
    have hq : ¬ (C.save img q).length ≤ TARGET_MAX_BYTES :=
      not_le.mpr (h q (by simp))
    simp only [tryQualities, if_neg hq]
    exact ih fun q' hq' => h q' (by simp [hq'])

/-- Unfolding helper: the fitter on undecodable bytes. -/
theorem fit_open_none {Img : Type} (C : Codec Img) (b : List Nat) (w h : Nat)
    (hopen : C.openImage b = none) :
    convert_and_compress_to_jpeg C b w h = .error .DecodeError := by
  simp only [convert_and_compress_to_jpeg, hopen]

/-- Unfolding helper: the fitter when the full-resolution ladder succeeds. -/
theorem fit_full_some {Img : Type} (C : Codec Img) (b : List Nat) (w h : Nat)
    (img0 : Img) (data : List Nat) (hopen : C.openImage b = some img0)
    (hfull : tryQualities C (normImg C img0 w h) fullQualityLadder = some data) :
    convert_and_compress_to_jpeg C b w h = .ok data := by
  simp only [convert_and_compress_to_jpeg, hopen, hfull]

/-- Unfolding helper: the fitter when the full-resolution ladder fails. -/
theorem fit_full_none {Img : Type} (C : Codec Img) (b : List Nat) (w h : Nat)
    (img0 : Img) (hopen : C.openImage b = some img0)
    (hfull : tryQualities C (normImg C img0 w h) fullQualityLadder = none) :
    convert_and_compress_to_jpeg C b w h =
      match scaleLoop C (normImg C img0 w h) w h (9 / 10) 5 with
      | some data => .ok data
      | none => .error .CompressionExhausted := by
  simp only [convert_and_compress_to_jpeg, hopen, hfull]

/-- The scale loop started at scale `0.9^(j+1)` performs the rounds
`j+1, j+2, ...`, each computing its dimensions from the original target
via the compounded scale. -/
theorem scaleLoop_shift {Img : Type} (C : Codec Img) (img : Img) (w h : Nat) :
    ∀ n j : Nat,
      scaleLoop C img w h (((9 : ℚ) / 10) ^ (j + 1)) n =
        (List.range' (j + 1) n).findSome? fun k =>
          tryQualities C
            (C.resize img (max 1 ⌊(w : ℚ) * (9 / 10) ^ k⌋₊, max 1 ⌊(h : ℚ) * (9 / 10) ^ k⌋₊))
            scaledQualityLadder := by
  intro n
  induction n with
  | zero => intro j; rfl
  | succ n ih =>
    intro j
    rw [List.range'_succ, List.findSome?_cons]
    simp only [scaleLoop]
    cases htry : tryQualities C
        (C.resize img (max 1 ⌊(w : ℚ) * (9 / 10) ^ (j + 1)⌋₊,
          max 1 ⌊(h : ℚ) * (9 / 10) ^ (j + 1)⌋₊)) scaledQualityLadder with
    | some data => rfl
    | none =>
      have hpow : ((9 : ℚ) / 10) ^ (j + 1) * (9 / 10) = ((9 : ℚ) / 10) ^ (j + 1 + 1) := by
        rw [← pow_succ]
      rw [hpow, ih (j + 1)]

/-- The scale-down fallback runs rounds `k = 1, ..., 5`, each resizing the
full-resolution raster to the round-`k` dimensions and returning the first
fit along the shorter ladder. -/
theorem scaleLoop_eq_rounds {Img : Type} (C : Codec Img) (img : Img) (w h : Nat) :
    scaleLoop C img w h (9 / 10) 5 =
      ([1, 2, 3, 4, 5] : List Nat).findSome? fun k =>
        tryQualities C (C.resize img (scaledDim w k, scaledDim h k)) scaledQualityLadder := by
  have hs := scaleLoop_shift C img w h 5 0
  rw [show ((9 : ℚ) / 10) = ((9 : ℚ) / 10) ^ (0 + 1) by rw [Nat.zero_add, pow_one]]
  exact hs

/-- Case analysis of a successful fit: the returned bytes are the encoding
of either the normalised full-resolution raster at some quality of the full
ladder, or of the round-`k` downscale (k between 1 and 5) at some quality
of the shorter ladder. -/
theorem fit_ok_cases {Img : Type} (C : Codec Img) (b : List Nat) (w h : Nat)
    (data : List Nat) (hok : convert_and_compress_to_jpeg C b w h = .ok data) :
    ∃ img0, C.openImage b = some img0 ∧
      ((∃ q ∈ fullQualityLadder, data = C.save (normImg C img0 w h) q) ∨
        ∃ k, (1 ≤ k ∧ k ≤ 5) ∧ ∃ q ∈ scaledQualityLadder,
          data = C.save (C.resize (normImg C img0 w h) (scaledDim w k, scaledDim h k)) q) := by
  cases hopen : C.openImage b with
  | none =>
    rw [fit_open_none C b w h hopen] at hok
    exact absurd hok (by simp)
  | some img0 =>
    refine ⟨img0, rfl, ?_⟩
    cases hfull : tryQualities C (normImg C img0 w h) fullQualityLadder with
    | some d =>
      rw [fit_full_some C b w h img0 d hopen hfull] at hok
      obtain rfl : d = data := by simpa using hok
      exact Or.inl (tryQualities_mem C _ _ _ hfull)
    | none =>
      rw [fit_full_none C b w h img0 hopen hfull] at hok
      cases hscale : scaleLoop C (normImg C img0 w h) w h (9 / 10) 5 with
      | none => rw [hscale] at hok; exact absurd hok (by simp)
      | some d =>
        rw [hscale] at hok
        obtain rfl : d = data := by simpa using hok
        rw [scaleLoop_eq_rounds] at hscale
        obtain ⟨k, hk, hfk⟩ := List.exists_of_findSome?_eq_some hscale
        have hkb : 1 ≤ k ∧ k ≤ 5 := by
          fin_cases hk <;> simp
        exact Or.inr ⟨k, hkb, tryQualities_mem C _ _ _ hfk⟩

/-- C1: whenever `convert_and_compress_to_jpeg` returns successfully, for
every input image and every target width and height, the returned byte
sequence has length at most the configured budget `TARGET_MAX_BYTES`
(950000) and therefore never exceeds the hard protocol limit `MAX_BYTES`
(1000000). -/
theorem fit_ok_within_budget {Img : Type} (C : Codec Img) (b : List Nat) (w h : Nat)
    (data : List Nat) (hok : convert_and_compress_to_jpeg C b w h = .ok data) :
    data.length ≤ TARGET_MAX_BYTES ∧ data.length ≤ MAX_BYTES := by
  have hbudget : data.length ≤ TARGET_MAX_BYTES := by
    cases hopen : C.openImage b with
    | none =>
      rw [fit_open_none C b w h hopen] at hok
      exact absurd hok (by simp)
    | some img0 =>
      cases hfull : tryQualities C (normImg C img0 w h) fullQualityLadder with
      | some d =>
        rw [fit_full_some C b w h img0 d hopen hfull] at hok
        obtain rfl : d = data := by simpa using hok
        exact tryQualities_le_budget C _ _ _ hfull
      | none =>
        rw [fit_full_none C b w h img0 hopen hfull] at hok
        cases hscale : scaleLoop C (normImg C img0 w h) w h (9 / 10) 5 with
        | none => rw [hscale] at hok; exact absurd hok (by simp)
        | some d =>
          rw [hscale] at hok
          obtain rfl : d = data := by simpa using hok
          rw [scaleLoop_eq_rounds] at hscale
          obtain ⟨k, _, hfk⟩ := List.exists_of_findSome?_eq_some hscale
          exact tryQualities_le_budget C _ _ _ hfk
  exact ⟨hbudget, hbudget.trans (by decide)⟩

theorem fit_ok_within_budget_witness :
    List.length [1, 1, 95] ≤ TARGET_MAX_BYTES ∧ List.length [1, 1, 95] ≤ MAX_BYTES :=
  fit_ok_within_budget (dimsCodec fun _ _ => 0) [5] 1 1 [1, 1, 95] rfl

/-- C7: for every byte sequence that the codec cannot decode, the fitter
fails with `DecodeError`; this holds for every codec whatever its resize
and encode behaviour, so no resize, encode or scale-down round can have
been involved. -/
theorem fit_undecodable_decode_error {Img : Type} (C : Codec Img) (b : List Nat)
    (w h : Nat) (hbad : C.openImage b = none) :
    convert_and_compress_to_jpeg C b w h = .error .DecodeError :=
  fit_open_none C b w h hbad

theorem fit_undecodable_decode_error_witness :
    convert_and_compress_to_jpeg (dimsCodec fun _ _ => 0) [] 1920 1080 = .error .DecodeError :=
  fit_undecodable_decode_error (dimsCodec fun _ _ => 0) [] 1920 1080 rfl

/-- Under the codec law that resizing yields a raster of the requested
size, the normalised raster has exactly the target size. -/
theorem normImg_size {Img : Type} (C : Codec Img)
    (hres : ∀ i s, C.size (C.resize i s) = s) (img0 : Img) (w h : Nat) :
    C.size (normImg C img0 w h) = (w, h) := by
  show C.size
      (if C.size (C.convert img0) ≠ (w, h) then C.resize (C.convert img0) (w, h)
        else C.convert img0) = (w, h)
  by_cases hsz : C.size (C.convert img0) ≠ (w, h)
  · rw [if_pos hsz]
    exact hres _ _
  · rw [if_neg hsz]
    exact not_not.mp hsz

/-- C2 (amended): a successful fit returns an encoding of a raster whose
size is exactly the target `(w, h)` when the full-resolution ladder
succeeded, and otherwise, for the successful scale-down round `k`
(1 ≤ k ≤ 5), exactly `(max 1 ⌊w·0.9^k⌋, max 1 ⌊h·0.9^k⌋)` — the code
truncates (`int`), it does not round to nearest. -/
theorem fit_ok_dims_floor {Img : Type} (C : Codec Img)
    (hres : ∀ i s, C.size (C.resize i s) = s)
    (b : List Nat) (w h : Nat) (data : List Nat)
    (hok : convert_and_compress_to_jpeg C b w h = .ok data) :
    ∃ r q, data = C.save r q ∧
      (C.size r = (w, h) ∨
        ∃ k, (1 ≤ k ∧ k ≤ 5) ∧ C.size r = (scaledDim w k, scaledDim h k)) := by
  obtain ⟨img0, _, hcase⟩ := fit_ok_cases C b w h data hok
  cases hcase with
  | inl hfull =>
    obtain ⟨q, _, hdata⟩ := hfull
    exact ⟨normImg C img0 w h, q, hdata, Or.inl (normImg_size C hres img0 w h)⟩
  | inr hscaled =>
    obtain ⟨k, hkb, q, _, hdata⟩ := hscaled
    exact ⟨_, q, hdata, Or.inr ⟨k, hkb, hres _ _⟩⟩

theorem fit_ok_dims_floor_witness :
    ∃ r q, [1, 1, 95] = (dimsCodec fun _ _ => 0).save r q ∧
      ((dimsCodec fun _ _ => 0).size r = (1, 1) ∨
        ∃ k, (1 ≤ k ∧ k ≤ 5) ∧
          (dimsCodec fun _ _ => 0).size r = (scaledDim 1 k, scaledDim 1 k)) :=
  fit_ok_dims_floor (dimsCodec fun _ _ => 0) (fun _ _ => rfl) [5] 1 1 [1, 1, 95] rfl

/-- Encoding-size control for the dimension counterexample: every raster
encodes over budget except the raster of size `(921, 691)`. -/
def cexSave : Nat × Nat → Nat → Nat :=
  fun i _ => if i = (921, 691) then 0 else 950000

/-- C2 (counterexample): at target 1024×768 the full ladder fails and
scale-down round 1 succeeds with a raster of size `int(1024·0.9) = 921`
by 691 — not `round(1024·0.9) = 922` as the claim states; the returned
bytes record the raster size 921×691 and are not an encoding of any
922×691 raster. -/
theorem fit_round_dims_cex :
    convert_and_compress_to_jpeg (dimsCodec cexSave) [5] 1024 768 = .ok [921, 691, 80] ∧
    scaledDim 1024 1 = 921 ∧
    round ((1024 : ℚ) * (9 / 10) ^ 1) = 922 ∧
    (dimsCodec cexSave).save (922, 691) 80 ≠ [921, 691, 80] := by
  have hopen : (dimsCodec cexSave).openImage [5] = some (5, 5) := rfl
  have hnorm : normImg (dimsCodec cexSave) (5, 5) 1024 768 = (1024, 768) := rfl
  have hfull :
      tryQualities (dimsCodec cexSave) (normImg (dimsCodec cexSave) (5, 5) 1024 768)
        fullQualityLadder = none := by
    apply tryQualities_eq_none
    intro q _
    rw [hnorm, dimsCodec_save_length]
    norm_num [cexSave, TARGET_MAX_BYTES]
  have h1 : scaledDim 1024 1 = 921 := by rw [scaledDim_eq_div]; decide
  have h2 : scaledDim 768 1 = 691 := by rw [scaledDim_eq_div]; decide
  have hscale :
      scaleLoop (dimsCodec cexSave) (1024, 768) 1024 768 (9 / 10) 5 = some [921, 691, 80] := by
    rw [scaleLoop_eq_rounds]
    simp only [List.findSome?_cons, h1, h2]
    rfl
  refine ⟨?_, h1, by norm_num [round_eq], by decide⟩
  rw [fit_full_none (dimsCodec cexSave) [5] 1024 768 (5, 5) hopen hfull, hnorm, hscale]

/-- Modelled from the spec: the scale-down fallback of §4.1 step 5, stated
in the spec's own terms — for rounds `k = 1, ..., 5` compute integer
dimensions from the ORIGINAL target via the compounded scale `0.9^k`
(minimum 1), resize the already-RGB full-resolution raster `img`, and
return the encoding at the first quality of the shorter ladder
`80, 75, 70, 65, 60, 55` whose size is at most the budget. -/
def specScaleFallback {Img : Type} (C : Codec Img) (img : Img) (w h : Nat) :
    Option (List Nat) :=
  ([1, 2, 3, 4, 5] : List Nat).findSome? fun k =>
    ((([80, 75, 70, 65, 60, 55] : List Nat).find? fun q =>
        decide ((C.save (C.resize img (scaledDim w k, scaledDim h k)) q).length ≤
          TARGET_MAX_BYTES)).map
      (C.save (C.resize img (scaledDim w k, scaledDim h k))))

/-- C3: the code's scale-down fallback (running scale multiplied by 0.9
each round, at most 5 rounds, resize from the already-RGB full-resolution
raster, shorter ladder tried in order with first success returned) equals
the spec's description: round `k` uses dimensions computed from the
ORIGINAL target with compounded scale `0.9^k`, clamped to a minimum of 1. -/
theorem scaleLoop_refines_spec_fallback {Img : Type} (C : Codec Img) (img : Img)
    (w h : Nat) :
    scaleLoop C img w h (9 / 10) 5 = specScaleFallback C img w h := by
  rw [scaleLoop_eq_rounds]
  unfold specScaleFallback
  congr 1
  funext k
  rw [tryQualities_eq_find]
  rfl

/-- C4: the full-resolution search walks the fixed descending ladder
`95, 92, ..., 50`; if `q` is the first quality on it whose encoding fits
the budget, the fitter returns that encoding immediately (no lower level
is tried and no further optimisation happens). -/
theorem fit_full_ladder_greedy {Img : Type} (C : Codec Img) (b : List Nat) (w h : Nat)
    (img0 : Img) (q : Nat) (hopen : C.openImage b = some img0)
    (hfirst : fullQualityLadder.find?
        (fun q => decide ((C.save (normImg C img0 w h) q).length ≤ TARGET_MAX_BYTES)) =
      some q) :
    fullQualityLadder = [95, 92, 90, 88, 85, 82, 80, 78, 75, 72, 70, 65, 60, 55, 50] ∧
    convert_and_compress_to_jpeg C b w h = .ok (C.save (normImg C img0 w h) q) := by
  refine ⟨rfl, ?_⟩
  apply fit_full_some C b w h img0 _ hopen
  rw [tryQualities_eq_find, hfirst]
  rfl

theorem fit_full_ladder_greedy_witness :
    fullQualityLadder = [95, 92, 90, 88, 85, 82, 80, 78, 75, 72, 70, 65, 60, 55, 50] ∧
    convert_and_compress_to_jpeg (dimsCodec fun _ _ => 0) [5] 2 3 =
      .ok ((dimsCodec fun _ _ => 0).save (normImg (dimsCodec fun _ _ => 0) (5, 5) 2 3) 95) :=
  fit_full_ladder_greedy (dimsCodec fun _ _ => 0) [5] 2 3 (5, 5) 95 rfl rfl

/-- C5: if every quality of the full ladder at full resolution and every
quality of the shorter ladder in all 5 scale-down rounds encodes over the
budget, the fitter fails with `CompressionExhausted` and returns no
output. -/
theorem fit_all_fail_exhausted {Img : Type} (C : Codec Img) (b : List Nat) (w h : Nat)
    (img0 : Img) (hopen : C.openImage b = some img0)
    (hfull : ∀ q ∈ fullQualityLadder,
      TARGET_MAX_BYTES < (C.save (normImg C img0 w h) q).length)
    (hscaled : ∀ k ∈ ([1, 2, 3, 4, 5] : List Nat), ∀ q ∈ scaledQualityLadder,
      TARGET_MAX_BYTES <
        (C.save (C.resize (normImg C img0 w h) (scaledDim w k, scaledDim h k)) q).length) :
    convert_and_compress_to_jpeg C b w h = .error .CompressionExhausted := by
  rw [fit_full_none C b w h img0 hopen (tryQualities_eq_none C _ _ hfull)]
  rw [scaleLoop_eq_rounds]
  rw [List.findSome?_eq_none_iff.mpr]
  intro k hk
  exact tryQualities_eq_none C _ _ (hscaled k hk)

theorem fit_all_fail_exhausted_witness :
    convert_and_compress_to_jpeg (dimsCodec fun _ _ => 950000) [5] 1024 768 =
      .error .CompressionExhausted := by
  apply fit_all_fail_exhausted (dimsCodec fun _ _ => 950000) [5] 1024 768 (5, 5) rfl
  · intro q _
    rw [dimsCodec_save_length]
    norm_num [TARGET_MAX_BYTES]
  · intro k _ q _
    rw [dimsCodec_save_length]
    norm_num [TARGET_MAX_BYTES]

/-- Python's `str.strip()` (bot.py lines 74-76): drop whitespace from both
ends of the string. -/
def pyStrip (s : String) : String :=
  ⟨((s.data.dropWhile Char.isWhitespace).reverse.dropWhile Char.isWhitespace).reverse⟩

/-- The spec's error taxonomy (§7) for the whole run.  In the script every
failure is a raised exception; `ConfigError` is the `RuntimeError` at
bot.py line 79, `FetchError` a `requests` exception propagating from
`download_random_picsum`, `DecodeError`/`CompressionExhausted` come from
the fitter, and `SizeLimitViolation` is the `RuntimeError` at line 87. -/
inductive MainError where
  | ConfigError : MainError
  | FetchError : MainError
  | DecodeError : MainError
  | CompressionExhausted : MainError
  | SizeLimitViolation : MainError
deriving DecidableEq, Repr

/-- The record handed to `client.send_image` (bot.py lines 93-97). -/
structure Post where
  text : String
  image : List Nat
  alt : String
deriving DecidableEq, Repr

/-- `main` (bot.py lines 73-99) with its external collaborators abstracted:
`env` models `os.environ.get` (`none` = variable absent), `choice` the
value of `random.choice(common_resolutions)`, `download` the
`download_random_picsum` HTTP call (`.error` models a raised request
exception), `fitter` the module-level name `convert_and_compress_to_jpeg`
(late-bound in Python, hence a parameter), and `today` the formatted UTC
date.  The optional `BSKY_PDS` variable only selects the client endpoint
and login/posting are modelled as succeeding, returning the record that
`client.send_image` receives. -/
def runMain (env : String → Option String) (choice : Nat × Nat)
    (download : Nat → Nat → Except Unit (List Nat × String))
    (fitter : List Nat → Nat → Nat → Except FitError (List Nat))
    (today : String) : Except MainError Post :=
  let handle := pyStrip ((env "BSKY_HANDLE").getD "")
  let app_password := pyStrip ((env "BSKY_APP_PASSWORD").getD "")
  if handle = "" ∨ app_password = "" then .error .ConfigError
  else
    let width := choice.1
    let height := choice.2
    match download width height with
    | .error _ => .error .FetchError
    | .ok (raw_bytes, final_url) =>
      match fitter raw_bytes width height with
      | .error .DecodeError => .error .DecodeError
      | .error .CompressionExhausted => .error .CompressionExhausted
      | .ok jpeg_bytes =>
        if MAX_BYTES < jpeg_bytes.length then .error .SizeLimitViolation
        else
          .ok { text := "Daily random image " ++ today ++ "\n" ++ toString width ++ "x" ++
                  toString height ++ "\nSource: " ++ final_url,
                image := jpeg_bytes,
                alt := "Random photo placeholder at " ++ toString width ++ " by " ++
                  toString height ++ " resolution." }

/-- `main` with the script's actual fitter plugged in. -/
def mainBot {Img : Type} (C : Codec Img) (env : String → Option String)
    (choice : Nat × Nat) (download : Nat → Nat → Except Unit (List Nat × String))
    (today : String) : Except MainError Post :=
  runMain env choice download (convert_and_compress_to_jpeg C) today

/-- C9: if either required credential environment variable is absent, the
run fails with `ConfigError` — for every codec, download collaborator,
resolution choice and date, so before the fetch, the fitter, the login and
the post are attempted. -/
theorem missing_credentials_config_error {Img : Type} (C : Codec Img)
    (env : String → Option String) (choice : Nat × Nat)
    (download : Nat → Nat → Except Unit (List Nat × String)) (today : String)
    (hmiss : env "BSKY_HANDLE" = none ∨ env "BSKY_APP_PASSWORD" = none) :
    mainBot C env choice download today = .error .ConfigError := by
  unfold mainBot runMain
  cases hmiss with
  | inl h => rw [h]; exact if_pos (Or.inl rfl)
  | inr h => rw [h]; exact if_pos (Or.inr rfl)

theorem missing_credentials_config_error_witness :
    mainBot (dimsCodec fun _ _ => 0) (fun _ => none) (1920, 1080)
      (fun _ _ => .error ()) "2026-10-12" = .error .ConfigError :=
  missing_credentials_config_error (dimsCodec fun _ _ => 0) (fun _ => none) (1920, 1080)
    (fun _ _ => .error ()) "2026-10-12" (Or.inl rfl)

/-- C6: the internal budget is strictly below the hard protocol limit, and
`main` re-validates the final byte count against `MAX_BYTES` after a
successful fit, failing with `SizeLimitViolation` when the count exceeds
the hard limit even though the fitter reported success. -/
theorem budget_margin_and_size_recheck (env : String → Option String)
    (choice : Nat × Nat) (download : Nat → Nat → Except Unit (List Nat × String))
    (fitter : List Nat → Nat → Nat → Except FitError (List Nat)) (today : String)
    (raw : List Nat) (url : String) (data : List Nat)
    (hhandle : pyStrip ((env "BSKY_HANDLE").getD "") ≠ "")
    (hpass : pyStrip ((env "BSKY_APP_PASSWORD").getD "") ≠ "")
    (hdl : download choice.1 choice.2 = .ok (raw, url))
    (hfit : fitter raw choice.1 choice.2 = .ok data)
    (hbig : MAX_BYTES < data.length) :
    TARGET_MAX_BYTES < MAX_BYTES ∧
    runMain env choice download fitter today = .error .SizeLimitViolation := by
  refine ⟨by decide, ?_⟩
  unfold runMain
  rw [if_neg (by push_neg; exact ⟨hhandle, hpass⟩)]
  simp only [hdl, hfit]
  rw [if_pos hbig]

theorem budget_margin_and_size_recheck_witness :
    TARGET_MAX_BYTES < MAX_BYTES ∧
    runMain (fun _ => some "x") (1, 2) (fun _ _ => .ok ([], "u"))
      (fun _ _ _ => .ok (List.replicate 1000001 0)) "2026-10-12" =
      .error .SizeLimitViolation :=
  budget_margin_and_size_recheck (fun _ => some "x") (1, 2) (fun _ _ => .ok ([], "u"))
    (fun _ _ _ => .ok (List.replicate 1000001 0)) "2026-10-12" [] "u"
    (List.replicate 1000001 0) (by decide) (by decide) rfl rfl
    (by rw [List.length_replicate]; decide)

/-- C8: for any notion of "being an RGB raster" under which RGB conversion
always yields an RGB raster, resizing preserves it, and encoding an RGB
raster yields bytes the codec can decode again, every successful fit
returns the encoding of an RGB raster and the output decodes again.  The
normalisation step `convert` is total in the interface, so it never fails
on a decodable image. -/
theorem fit_ok_rgb_roundtrip {Img : Type} (C : Codec Img) (isRGB : Img → Prop)
    (hconv : ∀ i, isRGB (C.convert i))
    (hresize : ∀ i s, isRGB i → isRGB (C.resize i s))
    (hroundtrip : ∀ i q, isRGB i → (C.openImage (C.save i q)).isSome)
    (b : List Nat) (w h : Nat) (data : List Nat)
    (hok : convert_and_compress_to_jpeg C b w h = .ok data) :
    ∃ r q, data = C.save r q ∧ isRGB r ∧ (C.openImage data).isSome := by
  obtain ⟨img0, _, hcase⟩ := fit_ok_cases C b w h data hok
  have hnorm : isRGB (normImg C img0 w h) := by
    show isRGB
      (if C.size (C.convert img0) ≠ (w, h) then C.resize (C.convert img0) (w, h)
        else C.convert img0)
    by_cases hsz : C.size (C.convert img0) ≠ (w, h)
    · rw [if_pos hsz]
      exact hresize _ _ (hconv _)
    · rw [if_neg hsz]
      exact hconv _
  cases hcase with
  | inl hfull =>
    obtain ⟨q, _, hdata⟩ := hfull
    exact ⟨_, q, hdata, hnorm, hdata ▸ hroundtrip _ q hnorm⟩
  | inr hsc =>
    obtain ⟨k, _, q, _, hdata⟩ := hsc
    have hrgb : isRGB (C.resize (normImg C img0 w h) (scaledDim w k, scaledDim h k)) :=
      hresize _ _ hnorm
    exact ⟨_, q, hdata, hrgb, hdata ▸ hroundtrip _ q hrgb⟩

theorem fit_ok_rgb_roundtrip_witness :
    ∃ r q, [1, 1, 95] = (dimsCodec fun _ _ => 0).save r q ∧ True ∧
      ((dimsCodec fun _ _ => 0).openImage [1, 1, 95]).isSome :=
  fit_ok_rgb_roundtrip (dimsCodec fun _ _ => 0) (fun _ => True) (fun _ => trivial)
    (fun _ _ _ => trivial) (fun _ _ _ => rfl) [5] 1 1 [1, 1, 95] rfl

/-- Cost-instrumented quality loop: same control flow as `tryQualities`,
additionally counting the `save` (JPEG encode) calls performed. -/
def tryQualitiesCount {Img : Type} (C : Codec Img) (img : Img) :
    List Nat → Option (List Nat) × Nat
  | [] => (none, 0)
  | quality :: rest =>
    let data := C.save img quality
    if data.length ≤ TARGET_MAX_BYTES then (some data, 1)
    else
      let r := tryQualitiesCount C img rest
      (r.1, r.2 + 1)

theorem tryQualitiesCount_fst {Img : Type} (C : Codec Img) (img : Img) (L : List Nat) :
    (tryQualitiesCount C img L).1 = tryQualities C img L := by
  induction L with
  | nil => rfl
  | cons q rest ih =>
    simp only [tryQualitiesCount, tryQualities]
    by_cases hq : (C.save img q).length ≤ TARGET_MAX_BYTES
    · rw [if_pos hq, if_pos hq]
    · rw [if_neg hq, if_neg hq]
      exact ih

theorem tryQualitiesCount_le {Img : Type} (C : Codec Img) (img : Img) (L : List Nat) :
    (tryQualitiesCount C img L).2 ≤ L.length := by
  induction L with
  | nil => exact Nat.le_refl 0
  | cons q rest ih =>
    simp only [tryQualitiesCount, List.length_cons]
    by_cases hq : (C.save img q).length ≤ TARGET_MAX_BYTES
    · rw [if_pos hq]
      exact Nat.succ_le_succ (Nat.zero_le _)
    · rw [if_neg hq]
      exact Nat.succ_le_succ ih

/-- Cost-instrumented scale-down loop: same control flow as `scaleLoop`,
additionally counting the encode calls of all executed rounds. -/
def scaleLoopCount {Img : Type} (C : Codec Img) (img : Img) (width height : Nat) :
    ℚ → Nat → Option (List Nat) × Nat
  | _, 0 => (none, 0)
  | scale, fuel + 1 =>
    let new_w := max 1 ⌊(width : ℚ) * scale⌋₊
    let new_h := max 1 ⌊(height : ℚ) * scale⌋₊
    let tmp := C.resize img (new_w, new_h)
    let r := tryQualitiesCount C tmp scaledQualityLadder
    match r.1 with
    | some data => (some data, r.2)
    | none =>
      let rest := scaleLoopCount C img width height (scale * (9 / 10)) fuel
      (rest.1, r.2 + rest.2)

theorem scaleLoopCount_fst {Img : Type} (C : Codec Img) (img : Img) (w h : Nat) :
    ∀ (n : Nat) (s : ℚ), (scaleLoopCount C img w h s n).1 = scaleLoop C img w h s n := by
  intro n
  induction n with
  | zero => intro s; rfl
  | succ n ih =>
    intro s
    simp only [scaleLoopCount, scaleLoop, tryQualitiesCount_fst]
    cases htry : tryQualities C
        (C.resize img (max 1 ⌊(w : ℚ) * s⌋₊, max 1 ⌊(h : ℚ) * s⌋₊)) scaledQualityLadder with
    | some data => rfl
    | none => exact ih (s * (9 / 10))

theorem scaleLoopCount_le {Img : Type} (C : Codec Img) (img : Img) (w h : Nat) :
    ∀ (n : Nat) (s : ℚ), (scaleLoopCount C img w h s n).2 ≤ 6 * n := by
  intro n
  induction n with
  | zero => intro s; exact Nat.le_refl 0
  | succ n ih =>
    intro s
    simp only [scaleLoopCount]
    have htc : (tryQualitiesCount C
        (C.resize img (max 1 ⌊(w : ℚ) * s⌋₊, max 1 ⌊(h : ℚ) * s⌋₊))
        scaledQualityLadder).2 ≤ 6 :=
      tryQualitiesCount_le C _ scaledQualityLadder
    cases htry : (tryQualitiesCount C
        (C.resize img (max 1 ⌊(w : ℚ) * s⌋₊, max 1 ⌊(h : ℚ) * s⌋₊)) scaledQualityLadder).1 with
    | some data =>
      show (tryQualitiesCount C
          (C.resize img (max 1 ⌊(w : ℚ) * s⌋₊, max 1 ⌊(h : ℚ) * s⌋₊))
          scaledQualityLadder).2 ≤ 6 * (n + 1)
      omega
    | none =>
      show (tryQualitiesCount C
          (C.resize img (max 1 ⌊(w : ℚ) * s⌋₊, max 1 ⌊(h : ℚ) * s⌋₊))
          scaledQualityLadder).2 + (scaleLoopCount C img w h (s * (9 / 10)) n).2 ≤ 6 * (n + 1)
      have := ih (s * (9 / 10))
      omega

/-- Cost-instrumented fitter: same control flow as
`convert_and_compress_to_jpeg`, additionally counting every JPEG encode
attempt performed. -/
def fitCount {Img : Type} (C : Codec Img) (img_bytes : List Nat) (width height : Nat) :
    Except FitError (List Nat) × Nat :=
  match C.openImage img_bytes with
  | none => (.error .DecodeError, 0)
  | some img0 =>
    let img := normImg C img0 width height
    let r := tryQualitiesCount C img fullQualityLadder
    match r.1 with
    | some data => (.ok data, r.2)
    | none =>
      let rest := scaleLoopCount C img width height (9 / 10) 5
      match rest.1 with
      | some data => (.ok data, r.2 + rest.2)
      | none => (.error .CompressionExhausted, r.2 + rest.2)

/-- C10: the fitter always terminates with a bounded amount of work — the
instrumented run agrees with `convert_and_compress_to_jpeg` on every input
and performs at most 15 encode attempts at full resolution plus 6 in each
of at most 5 scale-down rounds, 45 in total. -/
theorem fit_encode_attempts_bounded {Img : Type} (C : Codec Img) (b : List Nat)
    (w h : Nat) :
    (fitCount C b w h).1 = convert_and_compress_to_jpeg C b w h ∧
    (fitCount C b w h).2 ≤ 15 + 5 * 6 := by
  unfold fitCount convert_and_compress_to_jpeg
  cases hopen : C.openImage b with
  | none => exact ⟨rfl, Nat.zero_le _⟩
  | some img0 =>
    simp only [tryQualitiesCount_fst]
    have hfull : (tryQualitiesCount C (normImg C img0 w h) fullQualityLadder).2 ≤ 15 :=
      tryQualitiesCount_le C _ fullQualityLadder
    have hscaled : (scaleLoopCount C (normImg C img0 w h) w h (9 / 10) 5).2 ≤ 30 :=
      scaleLoopCount_le C _ w h 5 (9 / 10)
    cases htry : tryQualities C (normImg C img0 w h) fullQualityLadder with
    | some data =>
      refine ⟨rfl, ?_⟩
      show (tryQualitiesCount C (normImg C img0 w h) fullQualityLadder).2 ≤ 15 + 5 * 6
      omega
    | none =>
      simp only [scaleLoopCount_fst]
      cases hsc : scaleLoop C (normImg C img0 w h) w h (9 / 10) 5 with
      | some data =>
        refine ⟨rfl, ?_⟩
        show (tryQualitiesCount C (normImg C img0 w h) fullQualityLadder).2 +
          (scaleLoopCount C (normImg C img0 w h) w h (9 / 10) 5).2 ≤ 15 + 5 * 6
        omega
      | none =>
        refine ⟨rfl, ?_⟩
        show (tryQualitiesCount C (normImg C img0 w h) fullQualityLadder).2 +
          (scaleLoopCount C (normImg C img0 w h) w h (9 / 10) 5).2 ≤ 15 + 5 * 6
        omega
